import Mathlib

/-!
Verification development for the go-livereload repository.

The file embeds, as executable Lean definitions, the parts of the source the
claims depend on:

- internal/resprouter (the Response Router): per-response routing state machine
  with a header phase and a sniff phase, modelled as a fold of atomic events
  over the router state.  The Go mutex serializes Write, WriteHeader and the
  sniff-timer callback, so a response is faithfully modelled as a linear
  sequence of these events.
- internal/pubsub, both implementations present in the source lineage: the
  coordinator-goroutine one (channels addSub, removeSub, msg, done; method
  Close) and the mutex-protected-map one (method Clear), each modelled as a
  fold of Subscribe, Publish, Unsubscribe and teardown operations over an
  explicit state.
- internal/htmlpatch plus the InsertScript function: the document tree
  transformation, over a tree type mirroring the html.Node structure of
  golang.org/x/net/html (parsing and rendering are external collaborators;
  the embedding works on the parse result).
- the CSP nonce extraction of the top-level package (cspScriptNonce and
  scriptNonceAttrs), as functions on character lists mirroring the Go string
  operations.
- the patch-failure branch of Handler.injectScript.
-/

/-! ## Response Router (internal/resprouter) -/

/-- The value of the Go field Router.writer: nil before the header was written,
the buffering closure during the sniff phase, or a chosen destination. -/
inductive ActiveWriter (δ : Type) where
  | unset
  | sniffing
  | dest (d : δ)
deriving DecidableEq

/-- State of one Router (struct Router of internal/resprouter).  The buffer
holds bytes (as Nat); done records the values sent on the Done channel (which
has capacity 1 in the source); out is the ordered log of Write calls performed
on destination writers. -/
structure RouterState (δ : Type) where
  statusCode : Nat
  wroteHeader : Bool
  sniffed : Bool
  timerCreated : Bool
  buf : List Nat
  writer : ActiveWriter δ
  done : List δ
  doneClosed : Bool
  out : List (δ × List Nat)
deriving DecidableEq

/-- Configuration of a Router: SniffSize, SniffDuration (in nanoseconds, the
unit of time.Duration) and the two routing rules.  In the source the rules
receive the whole Router; they read its header and status code, and the header
is constant during one response, so the embedding passes the status code (and,
for the sniff rule, the sniffed bytes). -/
structure RouterCfg (δ : Type) where
  sniffSize : Nat
  sniffDurationNs : Nat
  headerRouter : Nat → Option δ
  sniffRouter : Nat → List Nat → δ

/-- Embeds resprouter.New: default SniffSize 512 and SniffDuration
100 milliseconds, that is 100000000 nanoseconds. -/
def routerNew {δ : Type} (h : Nat → Option δ) (s : Nat → List Nat → δ) : RouterCfg δ :=
  { sniffSize := 512, sniffDurationNs := 100000000, headerRouter := h, sniffRouter := s }

/-- Initial router state: Go zero values (StatusCode 0, nothing written, the
Done channel open and empty). -/
def routerInit {δ : Type} : RouterState δ :=
  { statusCode := 0, wroteHeader := false, sniffed := false, timerCreated := false,
    buf := [], writer := .unset, done := [], doneClosed := false, out := [] }

/-- Embeds the runSniffRouter closure of Router.WriteHeader: guarded by the
sniffed flag, it asks the sniff rule for a destination, flushes the buffered
bytes to it, installs it as the writer, and sends it on Done before closing
Done. -/
def runSniffRouter {δ : Type} (cfg : RouterCfg δ) (s : RouterState δ) : RouterState δ :=
  if s.sniffed then s
  else
    let d := cfg.sniffRouter s.statusCode s.buf
    { s with sniffed := true,
             out := s.out ++ [(d, s.buf)],
             writer := .dest d,
             done := s.done ++ [d],
             doneClosed := true }

/-- Embeds Router.WriteHeader: a second call is ignored; the first records the
status code and asks the header rule; a concrete destination decides routing
at once (Done receives it and is closed), otherwise the buffering writer is
installed and, when SniffDuration is positive, the timer is created. -/
def stepWriteHeader {δ : Type} (cfg : RouterCfg δ) (code : Nat) (s : RouterState δ) :
    RouterState δ :=
  if s.wroteHeader then s
  else
    let s1 := { s with wroteHeader := true, statusCode := code }
    match cfg.headerRouter code with
    | some d => { s1 with writer := .dest d, done := s1.done ++ [d], doneClosed := true }
    | none => { s1 with writer := .sniffing, timerCreated := decide (0 < cfg.sniffDurationNs) }

/-- Embeds the fn closure installed as the buffering writer in
Router.WriteHeader: it appends to the sniff buffer and, when SniffSize is
positive and the buffer has reached it, runs the sniff rule and stops the
timer. -/
def sniffWriterWrite {δ : Type} (cfg : RouterCfg δ) (data : List Nat) (s1 : RouterState δ) :
    RouterState δ :=
  if 0 < cfg.sniffSize ∧ cfg.sniffSize ≤ (s1.buf ++ data).length then
    { (runSniffRouter cfg { s1 with buf := s1.buf ++ data }) with timerCreated := false }
  else { s1 with buf := s1.buf ++ data }

/-- Dispatch of r.writer.Write(data) on the current writer value. -/
def writerWrite {δ : Type} (cfg : RouterCfg δ) (data : List Nat) (s1 : RouterState δ) :
    RouterState δ :=
  match s1.writer with
  | .unset => s1
  | .dest d => { s1 with out := s1.out ++ [(d, data)] }
  | .sniffing => sniffWriterWrite cfg data s1

/-- Embeds Router.Write: an implicit WriteHeader 200 when the header was not
written yet, then the current writer receives the data. -/
def stepWrite {δ : Type} (cfg : RouterCfg δ) (data : List Nat) (s : RouterState δ) :
    RouterState δ :=
  writerWrite cfg data (if s.wroteHeader then s else stepWriteHeader cfg 200 s)

/-- Embeds the firing of the time.AfterFunc timer of Router.WriteHeader: under
the router lock it runs runSniffRouter, whose sniffed guard makes a fire that
lost the race against size-based routing a no-op. -/
def stepTimerFire {δ : Type} (cfg : RouterCfg δ) (s : RouterState δ) : RouterState δ :=
  if s.timerCreated then runSniffRouter cfg s else s

/-- One atomic event on a Router: the lock serializes WriteHeader, Write and
the timer callback, so a response is a linear sequence of these. -/
inductive REv where
  | writeHeader (code : Nat)
  | write (data : List Nat)
  | timerFire
deriving DecidableEq

def routerStep {δ : Type} (cfg : RouterCfg δ) (s : RouterState δ) : REv → RouterState δ
  | .writeHeader code => stepWriteHeader cfg code s
  | .write data => stepWrite cfg data s
  | .timerFire => stepTimerFire cfg s

/-- Runs a Router over a sequence of events from the initial state. -/
def routerRun {δ : Type} (cfg : RouterCfg δ) (evs : List REv) : RouterState δ :=
  evs.foldl (routerStep cfg) routerInit

/-- Whether the receive from the Done channel in Handler.injectScript can
complete: a value is pending, or the channel has been closed. -/
def doneReceivable {δ : Type} (s : RouterState δ) : Prop :=
  s.done ≠ [] ∨ s.doneClosed = true

/-- The test configuration of the sniff-phase example: an abstaining header
rule and SniffSize 4, other fields as resprouter.New sets them. -/
def abstainCfg4 {δ : Type} (sr : Nat → List Nat → δ) : RouterCfg δ :=
  { routerNew (fun _ => none) sr with sniffSize := 4 }

/-- A configuration whose header rule always names the destination d. -/
def constHeaderCfg {δ : Type} (d : δ) (sr : Nat → List Nat → δ) : RouterCfg δ :=
  routerNew (fun _ => some d) sr

/-- Router state invariant: the Done channel carries exactly the chosen
destination, and it carries one exactly when routing has been decided. -/
def RInv {δ : Type} (s : RouterState δ) : Prop :=
  (s.writer = .unset →
    s.done = [] ∧ s.doneClosed = false ∧ s.sniffed = false ∧
    s.wroteHeader = false ∧ s.timerCreated = false)
  ∧ (s.writer = .sniffing → s.done = [] ∧ s.doneClosed = false ∧ s.sniffed = false)
  ∧ (∀ d, s.writer = .dest d → s.done = [d] ∧ s.doneClosed = true)
  ∧ (s.wroteHeader = false → s.writer = .unset)
  ∧ (s.timerCreated = true → s.writer = .sniffing ∨ s.sniffed = true)

/-! ## Broadcast channel (internal/pubsub)

The source lineage contains two implementations of PubSub.  Both are embedded
as sequential operational models: subscriptions are numbered in creation
order; each operation of the consumer-facing API runs to completion (the
coordinator goroutine respectively the mutex serializes them).  A state
records which subscriptions are in the implementation's subscriber set, whose
private done channel has been closed, whose receive (msg) channel has been
closed, and the log of deliveries a Publish is guaranteed to make (to
subscribers whose done channel is open, the select in the delivery goroutine
must deliver once the consumer reads). -/

/-- An operation on a PubSub value: teardown is Close for the
coordinator-goroutine implementation and Clear for the mutex-map one. -/
inductive PSOp (T : Type) where
  | subscribe
  | publish (m : T)
  | unsub (i : Nat)
  | teardown
deriving DecidableEq

/-- State of the coordinator-goroutine implementation (channels msg, addSub,
removeSub, done; methods Subscribe, Publish, Close).  subs is the map the
coordinator owns; unsubbed records the subscriptions whose sub.done has been
closed (the sub.once guard has fired); rcvClosed records the subscriptions
whose sub.msg channel has been closed; closed is whether p.done has been
closed. -/
structure CoordState (T : Type) where
  nextId : Nat
  subs : List Nat
  unsubbed : List Nat
  rcvClosed : List Nat
  delivered : List (Nat × T)
  closed : Bool
deriving DecidableEq

def coordInit {T : Type} : CoordState T := ⟨0, [], [], [], [], false⟩

/-- Embeds one operation of the coordinator implementation.  Subscribe sends
on addSub unless p.done is closed (then the select falls through and the
subscription is never registered).  Publish offers the message to every
subscription in the coordinator's map, or is a no-op after Close.  The unsub
closure is guarded by sub.once; it closes sub.done and sends on removeSub,
upon which the coordinator deletes the subscription and closes its msg
channel; after Close the removeSub send falls through to the done case.
Close closes p.done; the coordinator's deferred loop then closes the msg
channel of every subscription still in its map. -/
def coordStep {T : Type} (s : CoordState T) : PSOp T → CoordState T
  | .subscribe =>
      if s.closed then { s with nextId := s.nextId + 1 }
      else { s with nextId := s.nextId + 1, subs := s.subs ++ [s.nextId] }
  | .publish m =>
      if s.closed then s
      else { s with delivered := s.delivered ++ s.subs.map (fun i => (i, m)) }
  | .unsub i =>
      if i ∈ s.unsubbed then s
      else if s.closed then { s with unsubbed := s.unsubbed ++ [i] }
      else { s with unsubbed := s.unsubbed ++ [i], subs := s.subs.erase i,
                    rcvClosed := s.rcvClosed ++ [i] }
  | .teardown =>
      if s.closed then s
      else { s with closed := true, rcvClosed := s.rcvClosed ++ s.subs, subs := [] }

def coordRun {T : Type} (ops : List (PSOp T)) : CoordState T :=
  ops.foldl coordStep coordInit

/-- State of the mutex-protected-map implementation (field subscribers, guard
mu; methods Subscribe, Publish, Clear).  subscribers is the p.subscribers
map; closedFlags records the subscribers with s.closed set (their done channel
closed); rcvClosed records closed receive channels — no statement of this
implementation ever closes one. -/
structure MutexState (T : Type) where
  nextId : Nat
  subscribers : List Nat
  closedFlags : List Nat
  rcvClosed : List Nat
  delivered : List (Nat × T)
deriving DecidableEq

def mutexInit {T : Type} : MutexState T := ⟨0, [], [], [], []⟩

/-- Embeds one operation of the mutex-map implementation.  Subscribe adds to
the map unconditionally (there is no teardown flag).  Publish spawns a
delivery attempt for every member of the map; an attempt for a subscriber
with open done must deliver, one for a subscriber with closed done races the
send against the closed done channel, so only the former are recorded as
guaranteed deliveries.  The unsub closure only sets s.closed and closes
s.done under the lock — it never removes the subscriber from the map and
never closes the receive channel.  Clear does the same for every member. -/
def mutexStep {T : Type} (s : MutexState T) : PSOp T → MutexState T
  | .subscribe =>
      { s with nextId := s.nextId + 1, subscribers := s.subscribers ++ [s.nextId] }
  | .publish m =>
      { s with delivered := s.delivered ++
          ((s.subscribers.filter (fun i => ! s.closedFlags.contains i)).map (fun i => (i, m))) }
  | .unsub i =>
      if i ∈ s.closedFlags then s else { s with closedFlags := s.closedFlags ++ [i] }
  | .teardown =>
      { s with closedFlags := s.closedFlags ++
          (s.subscribers.filter (fun i => ! s.closedFlags.contains i)) }

def mutexRun {T : Type} (ops : List (PSOp T)) : MutexState T :=
  ops.foldl mutexStep mutexInit

/-- The set of subscribers for which Publish of the mutex-map implementation
spawns a delivery-attempt goroutine: every member of p.subscribers, including
those whose done channel is already closed. -/
def mutexPublishAttempts {T : Type} (s : MutexState T) : List Nat :=
  s.subscribers

/-! ## Markup patching (internal/htmlpatch and InsertScript)

The tree type mirrors the html.Node structure of golang.org/x/net/html as far
as the patching code reads it: node type, tag or text data, attributes, and
the FirstChild/NextSibling chain, which is represented as a children list.
Parsing and rendering are external collaborators of the repository; the
embedding takes the parse result and produces the patched tree. -/

/-- Node types of html.Node used by the patching code. -/
inductive NType where
  | documentNode
  | doctypeNode
  | elementNode
  | textNode
deriving DecidableEq

/-- Mirrors html.Attribute (the Namespace field is unused by this code). -/
structure HAttr where
  key : String
  val : String
deriving DecidableEq

/-- Mirrors html.Node: type, data, attributes and children. -/
inductive HNode where
  | node (ntype : NType) (data : String) (attr : List HAttr) (children : List HNode)

def HNode.ntype : HNode → NType
  | .node t _ _ _ => t

def HNode.data : HNode → String
  | .node _ d _ _ => d

def HNode.attr : HNode → List HAttr
  | .node _ _ a _ => a

def HNode.children : HNode → List HNode
  | .node _ _ _ c => c

/-- The test of findFirstTag on one child: child.Type is ElementNode and
child.Data is the tag name. -/
def isTag (tagName : String) (c : HNode) : Bool :=
  decide (c.ntype = NType.elementNode ∧ c.data = tagName)

/-- The test of findDoctype on one child: child.Type is DoctypeNode. -/
def isDoctype (c : HNode) : Bool :=
  decide (c.ntype = NType.doctypeNode)

/-- Embeds findFirstTag of internal/htmlpatch: the first direct child that is
an element with the given tag name. -/
def findFirstTag (n : HNode) (tagName : String) : Option HNode :=
  n.children.find? (isTag tagName)

/-- Embeds findDoctype of internal/htmlpatch: the first direct child that is
a doctype node. -/
def findDoctype (n : HNode) : Option HNode :=
  n.children.find? isDoctype

/-- Mirrors html.Node.AppendChild: the child becomes the last child. -/
def appendChild (n c : HNode) : HNode :=
  .node n.ntype n.data n.attr (n.children ++ [c])

/-- Embeds prependChild of internal/htmlpatch: AppendChild when there is no
first child, InsertBefore the first child otherwise — in both cases the child
becomes the first child. -/
def prependChild (n c : HNode) : HNode :=
  .node n.ntype n.data n.attr (c :: n.children)

/-- Applies f to the first element of the list satisfying p, leaving the rest
unchanged; this is how an in-place mutation of the node found by findFirstTag
acts on the children list of the surrounding node. -/
def updateFirstList (p : HNode → Bool) (f : HNode → HNode) : List HNode → List HNode
  | [] => []
  | c :: cs => if p c then f c :: cs else c :: updateFirstList p f cs

/-- Applies f to the first child of n satisfying p. -/
def updateFirstChild (p : HNode → Bool) (f : HNode → HNode) (n : HNode) : HNode :=
  .node n.ntype n.data n.attr (updateFirstList p f n.children)

/-- The doctype node created by findOrCreateHtmlTag when absent. -/
def doctypeHtml : HNode := .node .doctypeNode "html" [] []

/-- The html element created by findOrCreateHtmlTag when absent. -/
def emptyHtmlTag : HNode := .node .elementNode "html" [] []

/-- The head element created by findOrCreateHeadTag when absent. -/
def emptyHeadTag : HNode := .node .elementNode "head" [] []

/-- Embeds findOrCreateHtmlTag of internal/htmlpatch as a transformation of
the document node: append a fresh html element when none exists, then prepend
a doctype node when none exists.  The found or created html tag is the first
html element child of the result. -/
def findOrCreateHtmlTag (doc : HNode) : HNode :=
  let doc1 :=
    match findFirstTag doc "html" with
    | some _ => doc
    | none => appendChild doc emptyHtmlTag
  match findDoctype doc1 with
  | some _ => doc1
  | none => prependChild doc1 doctypeHtml

/-- Embeds findOrCreateHeadTag of internal/htmlpatch as a transformation of
the html tag: prepend a fresh head element when none exists.  The found or
created head tag is the first head element child of the result. -/
def findOrCreateHeadTag (htmlTag : HNode) : HNode :=
  match findFirstTag htmlTag "head" with
  | some _ => htmlTag
  | none => prependChild htmlTag emptyHeadTag

/-- Embeds scriptTag of the htmlpatch package: a script element with the
given attributes, holding one text child when the content is nonempty. -/
def scriptTag (attrs : List HAttr) (content : String) : HNode :=
  .node .elementNode "script" attrs
    (if content = "" then [] else [.node .textNode content [] []])

/-- Embeds the tree transformation of InsertScript: ensure the html tag and a
doctype, ensure the head tag inside the html tag, and append the script tag
as the last child of the head tag. -/
def insertScriptTree (doc : HNode) (attrs : List HAttr) (content : String) : HNode :=
  updateFirstChild (isTag "html")
    (fun htmlTag =>
      updateFirstChild (isTag "head")
        (fun headTag => appendChild headTag (scriptTag attrs content))
        (findOrCreateHeadTag htmlTag))
    (findOrCreateHtmlTag doc)

/-- Embeds InsertScript including its error flow: html.Parse and html.Render
are external collaborators, so the embedding takes the parse result; a parse
error is wrapped and returned, and InsertScript returns an error in no other
case (rendering of a parsed and patched tree does not fail). -/
def insertScript (parsed : Except String HNode) (attrs : List HAttr) (content : String) :
    Except String HNode :=
  match parsed with
  | .error e => .error ("could not parse HTML: " ++ e)
  | .ok doc => .ok (insertScriptTree doc attrs content)

/-- The children of the head tag reached the way the patching code reaches
it: the first head element child of the first html element child of the
document. -/
def headChildrenVia (doc : HNode) : Option (List HNode) :=
  (findFirstTag doc "html").bind (fun h => (findFirstTag h "head").map HNode.children)

/-! ## CSP nonce extraction (scriptNonceAttrs, cspScriptNonce)

The Go string functions are embedded over character lists, mirroring
strings.Split, strings.Fields, strings.TrimPrefix, strings.TrimSuffix and
strings.CutPrefix. -/

/-- The characters of a string literal. -/
def s2c (s : String) : List Char := s.data

/-- Mirrors unicode.IsSpace on the Latin-1 range, the alphabet of CSP header
values: tab, newline, vertical tab, form feed, carriage return, space, next
line and no-break space. -/
def isSpaceGo (c : Char) : Bool :=
  c == ' ' || c == '\t' || c == '\n' || c == Char.ofNat 11 || c == Char.ofNat 12
    || c == '\r' || c == Char.ofNat 133 || c == Char.ofNat 160

/-- Mirrors strings.Split with a one-character separator: every separator
occurrence splits, empty parts are kept, and the empty input yields one empty
part. -/
def goSplitSep (sep : Char) : List Char → List (List Char)
  | [] => [[]]
  | c :: cs =>
    if c = sep then [] :: goSplitSep sep cs
    else
      match goSplitSep sep cs with
      | [] => [[c]]
      | d :: ds => (c :: d) :: ds

/-- Splitting on whitespace runs, keeping empty parts — the first half of
strings.Fields. -/
def goSplitWs : List Char → List (List Char)
  | [] => [[]]
  | c :: cs =>
    if isSpaceGo c then [] :: goSplitWs cs
    else
      match goSplitWs cs with
      | [] => [[c]]
      | d :: ds => (c :: d) :: ds

/-- Mirrors strings.Fields: the maximal nonempty runs between whitespace. -/
def goFields (s : List Char) : List (List Char) :=
  (goSplitWs s).filter (fun f => ! f.isEmpty)

/-- The single-quote character stripped by cspScriptNonce. -/
def quoteChar : Char := Char.ofNat 39

/-- Mirrors strings.TrimPrefix. -/
def goTrimPfx (s pre : List Char) : List Char :=
  if pre.isPrefixOf s then s.drop pre.length else s

/-- Mirrors strings.TrimSuffix. -/
def goTrimSfx (s suf : List Char) : List Char :=
  if suf.isSuffixOf s then s.take (s.length - suf.length) else s

/-- Mirrors strings.CutPrefix. -/
def goCutPfx (s pre : List Char) : List Char × Bool :=
  if pre.isPrefixOf s then (s.drop pre.length, true) else (s, false)

def noncePfx : List Char := s2c "nonce-"

/-- The body of the inner loop of cspScriptNonce on one field: strip one
leading and one trailing single quote, then cut the nonce- marker; the
remainder is returned when the marker was present. -/
def nonceOfField (field : List Char) : Option (List Char) :=
  let f1 := goTrimPfx field [quoteChar]
  let f2 := goTrimSfx f1 [quoteChar]
  let r := goCutPfx f2 noncePfx
  if r.2 then some r.1 else none

/-- The body of the outer loop of cspScriptNonce on one directive: skip it
when it has fewer than two fields or its first field is not script-src,
otherwise return the value of its first field carrying the nonce- marker. -/
def directiveNonce (directive : List Char) : Option (List Char) :=
  match goFields directive with
  | [] => none
  | f0 :: rest =>
    if rest.isEmpty then none
    else if f0 = s2c "script-src" then rest.findSome? nonceOfField
    else none

/-- Embeds cspScriptNonce of the livereload package: split the header value
on semicolons, scan the directives in order, and return the first nonce value
found, or the empty string when no directive yields one. -/
def cspScriptNonce (csp : List Char) : List Char :=
  ((goSplitSep ';' csp).findSome? directiveNonce).getD []

/-- Embeds scriptNonceAttrs of the livereload package, applied to the value
of the Content-Security-Policy header: no attributes when the extracted nonce
is empty, otherwise the single nonce attribute. -/
def scriptNonceAttrs (csp : List Char) : List HAttr :=
  if cspScriptNonce csp = [] then [] else [⟨"nonce", String.mk (cspScriptNonce csp)⟩]

/-- States the claim wording on one directive: its first nonce- token value
when the directive is a script-src directive. -/
def specDirectiveNonce (directive : List Char) : Option (List Char) :=
  match goFields directive with
  | [] => none
  | f0 :: rest =>
    if f0 = s2c "script-src" then rest.findSome? nonceOfField else none

/-- States the claim wording for comparison with cspScriptNonce: the value of
the first nonce- token (after quote trimming) of the first script-src
directive that contains one, when any does. -/
def specFirstNonce (csp : List Char) : Option (List Char) :=
  (goSplitSep ';' csp).findSome? specDirectiveNonce

/-- The CSP value of the C10 counterexample: a script-src directive holding a
bare quoted nonce- marker with empty value followed by a nonce token with
value abc. -/
def cspCounterexample : List Char :=
  s2c "script-src " ++ [quoteChar] ++ s2c "nonce-" ++ [quoteChar, ' ', quoteChar]
    ++ s2c "nonce-abc" ++ [quoteChar]

/-- A CSP value whose script-src directive carries one nonce token. -/
def cspWitnessYes : List Char :=
  s2c "script-src " ++ [quoteChar] ++ s2c "nonce-xyz" ++ [quoteChar]

/-- A CSP value without any script-src nonce token. -/
def cspWitnessNo : List Char := s2c "img-src example.com"

/-! ## Patch-failure policy of Handler.injectScript -/

/-- The prefix that fmt.Errorf wraps around the patch error in
Handler.injectScript. -/
def insertErrPre : List Char := s2c "could not insert script into HTML: "

/-- Mirrors http.Error: the given status code with the message plus a
newline as the body. -/
def httpError (msg : List Char) (code : Nat) : Nat × List Char :=
  (code, msg ++ ['\n'])

/-- Embeds the tail of Handler.injectScript once the response was routed to
the rewrite buffer, as a function of the original status code, the buffered
bytes and the patch result: on a patch error, a status other than 200
forwards the buffered bytes verbatim under the original status, and status
200 yields a 500 with the wrapped error text; on success the patched bytes
plus a newline are written under the original status. -/
def finishInjectScript (origStatus : Nat) (origHtml : List Char)
    (patched : Except (List Char) (List Char)) : Nat × List Char :=
  match patched with
  | .error e =>
    if origStatus ≠ 200 then (origStatus, origHtml)
    else httpError (insertErrPre ++ e) 500
  | .ok newHtml => (origStatus, newHtml ++ ['\n'])

theorem rinv_init {δ : Type} : RInv (routerInit (δ := δ)) := by
  refine ⟨fun _ => ⟨rfl, rfl, rfl, rfl, rfl⟩, fun h => ?_, fun d h => ?_, fun _ => rfl, fun h => ?_⟩
  · simp [routerInit] at h
  · simp [routerInit] at h
  · simp [routerInit] at h

theorem rinv_runSniffRouter {δ : Type} (cfg : RouterCfg δ) (s : RouterState δ)
    (h : RInv s) (hw : s.writer = .sniffing) (hh : s.wroteHeader = true) :
    RInv (runSniffRouter cfg s) := by
  obtain ⟨h1, h2, h3, h4, h5⟩ := h
  have hs := h2 hw
  unfold runSniffRouter
  rw [hs.2.2]
  simp only [Bool.false_eq_true, if_false]
  refine ⟨fun hc => ?_, fun hc => ?_, fun d hc => ?_, fun hc => ?_, fun _ => ?_⟩
  · simp at hc
  · simp at hc
  · simp at hc
    subst hc
    simp [hs.1]
  · simp [hh] at hc
  · exact Or.inr rfl

theorem rinv_stepWriteHeader {δ : Type} (cfg : RouterCfg δ) (code : Nat) (s : RouterState δ)
    (h : RInv s) : RInv (stepWriteHeader cfg code s) := by
  obtain ⟨h1, h2, h3, h4, h5⟩ := h
  unfold stepWriteHeader
  by_cases hwh : s.wroteHeader
  · simp only [hwh, if_true]
    exact ⟨h1, h2, h3, h4, h5⟩
  · simp only [Bool.not_eq_true] at hwh
    simp only [hwh, Bool.false_eq_true, if_false]
    have hu := h4 hwh
    have hz := h1 hu
    cases hr : cfg.headerRouter code with
    | some d =>
      refine ⟨fun hc => ?_, fun hc => ?_, fun d2 hc => ?_, fun hc => ?_, fun hc => ?_⟩
      · simp at hc
      · simp at hc
      · simp at hc
        subst hc
        simp [hz.1]
      · simp at hc
      · simp at hc
        rw [hc] at hz
        exact absurd hz.2.2.2.2 (by simp)
    | none =>
      refine ⟨fun hc => ?_, fun hc => ?_, fun d2 hc => ?_, fun hc => ?_, fun _ => ?_⟩
      · simp at hc
      · exact ⟨hz.1, hz.2.1, hz.2.2.1⟩
      · simp at hc
      · simp at hc
      · exact Or.inl rfl

theorem wroteHeader_stepWriteHeader {δ : Type} (cfg : RouterCfg δ) (code : Nat)
    (s : RouterState δ) (hwh : s.wroteHeader = false) :
    (stepWriteHeader cfg code s).wroteHeader = true := by
  unfold stepWriteHeader
  simp only [hwh, Bool.false_eq_true, if_false]
  cases cfg.headerRouter code <;> rfl

theorem rinv_sniffWriterWrite {δ : Type} (cfg : RouterCfg δ) (data : List Nat)
    (s1 : RouterState δ) (h : RInv s1) (hw : s1.writer = .sniffing)
    (hwh1 : s1.wroteHeader = true) : RInv (sniffWriterWrite cfg data s1) := by
  obtain ⟨g1, g2, g3, g4, g5⟩ := h
  have hsn := g2 hw
  have hinv2 : RInv { s1 with buf := s1.buf ++ data } := by
    refine ⟨fun hc => ?_, fun _ => ⟨hsn.1, hsn.2.1, hsn.2.2⟩, fun d hc => ?_, fun hc => ?_,
      fun hc => ?_⟩
    · exact absurd (hw.symm.trans (show s1.writer = .unset from hc)) (by simp)
    · exact absurd (hw.symm.trans (show s1.writer = .dest d from hc)) (by simp)
    · exact absurd (hwh1.symm.trans (show s1.wroteHeader = false from hc)) (by simp)
    · exact g5 hc
  unfold sniffWriterWrite
  by_cases hcond : 0 < cfg.sniffSize ∧ cfg.sniffSize ≤ (s1.buf ++ data).length
  · rw [if_pos hcond]
    have hres := rinv_runSniffRouter cfg { s1 with buf := s1.buf ++ data } hinv2
      (show s1.writer = .sniffing from hw) (show s1.wroteHeader = true from hwh1)
    obtain ⟨k1, k2, k3, k4, k5⟩ := hres
    refine ⟨fun hc => ?_, fun hc => ?_, fun d hc => ?_, fun hc => ?_, fun hc => ?_⟩
    · exact ⟨(k1 hc).1, (k1 hc).2.1, (k1 hc).2.2.1, (k1 hc).2.2.2.1, rfl⟩
    · exact k2 hc
    · exact k3 d hc
    · exact k4 hc
    · exact absurd hc (by simp)
  · rw [if_neg hcond]
    exact hinv2

theorem rinv_writerWrite {δ : Type} (cfg : RouterCfg δ) (data : List Nat)
    (s1 : RouterState δ) (h : RInv s1) (hwh1 : s1.wroteHeader = true) :
    RInv (writerWrite cfg data s1) := by
  obtain ⟨g1, g2, g3, g4, g5⟩ := h
  cases hw : s1.writer with
  | unset =>
    simp only [writerWrite, hw]
    exact ⟨g1, g2, g3, g4, g5⟩
  | sniffing =>
    simp only [writerWrite, hw]
    exact rinv_sniffWriterWrite cfg data s1 ⟨g1, g2, g3, g4, g5⟩ hw hwh1
  | dest d =>
    simp only [writerWrite, hw]
    refine ⟨fun hc => ?_, fun hc => ?_, fun d2 hc => ?_, fun hc => ?_, fun hc => ?_⟩
    · exact absurd (show ActiveWriter.dest d = .unset from hc) (by simp)
    · exact absurd (show ActiveWriter.dest d = .sniffing from hc) (by simp)
    · have hc2 : ActiveWriter.dest d = ActiveWriter.dest d2 := hc
      injection hc2 with he
      subst he
      exact g3 d hw
    · exact absurd (hwh1.symm.trans (show s1.wroteHeader = false from hc)) (by simp)
    · rcases g5 hc with hg | hg
      · exact absurd (hw.symm.trans hg) (by simp)
      · exact Or.inr hg

theorem rinv_stepWrite {δ : Type} (cfg : RouterCfg δ) (data : List Nat) (s : RouterState δ)
    (h : RInv s) : RInv (stepWrite cfg data s) := by
  unfold stepWrite
  by_cases hwh : s.wroteHeader
  · rw [if_pos hwh]
    exact rinv_writerWrite cfg data s h hwh
  · simp only [Bool.not_eq_true] at hwh
    rw [if_neg (by simp [hwh])]
    exact rinv_writerWrite cfg data _ (rinv_stepWriteHeader cfg 200 s h)
      (wroteHeader_stepWriteHeader cfg 200 s hwh)

theorem rinv_stepTimerFire {δ : Type} (cfg : RouterCfg δ) (s : RouterState δ)
    (h : RInv s) : RInv (stepTimerFire cfg s) := by
  obtain ⟨h1, h2, h3, h4, h5⟩ := h
  unfold stepTimerFire
  by_cases htc : s.timerCreated
  · simp only [htc, if_true]
    rcases h5 htc with hw | hsn
    · have hwh : s.wroteHeader = true := by
        by_contra hbad
        simp only [Bool.not_eq_true] at hbad
        have := h4 hbad
        rw [this] at hw
        simp at hw
      exact rinv_runSniffRouter cfg s ⟨h1, h2, h3, h4, h5⟩ hw hwh
    · unfold runSniffRouter
      rw [hsn]
      simp only [if_true]
      exact ⟨h1, h2, h3, h4, h5⟩
  · simp only [Bool.not_eq_true] at htc
    simp only [htc, Bool.false_eq_true, if_false]
    exact ⟨h1, h2, h3, h4, h5⟩

theorem rinv_step {δ : Type} (cfg : RouterCfg δ) (e : REv) (s : RouterState δ)
    (h : RInv s) : RInv (routerStep cfg s e) := by
  cases e with
  | writeHeader code => exact rinv_stepWriteHeader cfg code s h
  | write data => exact rinv_stepWrite cfg data s h
  | timerFire => exact rinv_stepTimerFire cfg s h

theorem rinv_fold {δ : Type} (cfg : RouterCfg δ) (evs : List REv) (s : RouterState δ)
    (h : RInv s) : RInv (evs.foldl (routerStep cfg) s) := by
  induction evs generalizing s with
  | nil => exact h
  | cons e rest ih => exact ih _ (rinv_step cfg e s h)

theorem rinv_run {δ : Type} (cfg : RouterCfg δ) (evs : List REv) :
    RInv (routerRun cfg evs) :=
  rinv_fold cfg evs _ rinv_init

theorem done_length_le_one {δ : Type} (s : RouterState δ) (h : RInv s) :
    s.done.length ≤ 1 := by
  obtain ⟨h1, h2, h3, _, _⟩ := h
  cases hw : s.writer with
  | unset => simp [(h1 hw).1]
  | sniffing => simp [(h2 hw).1]
  | dest d => simp [(h3 d hw).1]

theorem foldl_writes_dest {δ : Type} (cfg : RouterCfg δ) (d : δ) (ws : List (List Nat))
    (s : RouterState δ) (hw : s.writer = .dest d) (hh : s.wroteHeader = true) :
    (ws.map REv.write).foldl (routerStep cfg) s
      = { s with out := s.out ++ ws.map (fun w => (d, w)) } := by
  induction ws generalizing s with
  | nil => simp
  | cons w rest ih =>
    simp only [List.map_cons, List.foldl_cons]
    have hstep : routerStep cfg s (.write w) = { s with out := s.out ++ [(d, w)] } := by
      show stepWrite cfg w s = _
      unfold stepWrite
      rw [if_pos hh]
      simp only [writerWrite, hw]
    rw [hstep]
    rw [ih { s with out := s.out ++ [(d, w)] } hw hh]
    simp

/-- C1: with an upstream that writes neither body nor header (the empty event
trace), the Response Router never fires a routing decision — nothing is ever
sent on the Done channel and the channel is never closed, so the receive from
Done in Handler.injectScript can never complete — and no output byte is
produced, with the status code left at its zero value.  This refutes the part
of the claim saying request handling still completes: the caller blocks
forever awaiting the decision. -/
theorem c1_empty_upstream_blocks :
    ∀ (δ : Type) (h : Nat → Option δ) (sr : Nat → List Nat → δ),
      (routerRun (routerNew h sr) []).done = []
      ∧ (routerRun (routerNew h sr) []).doneClosed = false
      ∧ ¬ doneReceivable (routerRun (routerNew h sr) [])
      ∧ (routerRun (routerNew h sr) []).out = []
      ∧ (routerRun (routerNew h sr) []).statusCode = 0
      ∧ (routerRun (routerNew h sr) []).wroteHeader = false := by
  intro δ h sr
  refine ⟨rfl, rfl, ?_, rfl, rfl, rfl⟩
  intro hr
  rcases hr with hr | hr
  · exact hr rfl
  · exact Bool.noConfusion hr

/-- C5: the sniff-phase routing decision.  Conjuncts: the defaults of
resprouter.New are SniffSize 512 and SniffDuration 100 milliseconds; over any
event sequence at most one value is ever sent on Done (the decision fires at
most once, whatever the interleaving of writes and the timer); with an
abstaining header rule and sniff-size 4, the writes ab, cd, ef fire the
decision exactly once, after cd, with the sniff rule observing exactly abcd,
those four bytes flushed to the chosen destination before any later write,
and ef going straight to that destination; and when the timer fires first the
rule observes exactly the bytes accumulated so far and later writes go
straight to the chosen destination. -/
theorem c5_sniff_phase_routing :
    (∀ (δ : Type) (h : Nat → Option δ) (sr : Nat → List Nat → δ),
      (routerNew h sr).sniffSize = 512 ∧ (routerNew h sr).sniffDurationNs = 100000000)
    ∧ (∀ (δ : Type) (cfg : RouterCfg δ) (evs : List REv),
        (routerRun cfg evs).done.length ≤ 1)
    ∧ (∀ (δ : Type) (sr : Nat → List Nat → δ),
        (routerRun (abstainCfg4 sr) [REv.write [97, 98]]).done = []
        ∧ (routerRun (abstainCfg4 sr)
            [REv.write [97, 98], REv.write [99, 100], REv.write [101, 102]]).done
          = [sr 200 [97, 98, 99, 100]]
        ∧ (routerRun (abstainCfg4 sr)
            [REv.write [97, 98], REv.write [99, 100], REv.write [101, 102]]).out
          = [(sr 200 [97, 98, 99, 100], [97, 98, 99, 100]),
             (sr 200 [97, 98, 99, 100], [101, 102])])
    ∧ (∀ (δ : Type) (sr : Nat → List Nat → δ),
        (routerRun (abstainCfg4 sr)
            [REv.write [97, 98], REv.timerFire, REv.write [99, 100]]).done
          = [sr 200 [97, 98]]
        ∧ (routerRun (abstainCfg4 sr)
            [REv.write [97, 98], REv.timerFire, REv.write [99, 100]]).out
          = [(sr 200 [97, 98], [97, 98]), (sr 200 [97, 98], [99, 100])]) := by
  refine ⟨fun δ h sr => ⟨rfl, rfl⟩,
    fun δ cfg evs => done_length_le_one _ (rinv_run cfg evs),
    fun δ sr => ⟨rfl, rfl, rfl⟩,
    fun δ sr => ⟨rfl, rfl⟩⟩

/-- C7: when the header rule names a concrete destination at the first header
write, no body byte is ever buffered: the sniff buffer stays empty, Done
carries exactly that destination, and every write lands on that destination
in write order, carrying exactly the upstream bytes. -/
theorem c7_header_decided_no_buffering :
    ∀ (δ : Type) (d : δ) (sr : Nat → List Nat → δ) (code : Nat) (ws : List (List Nat)),
      (routerRun (constHeaderCfg d sr) (REv.writeHeader code :: ws.map REv.write)).out
        = ws.map (fun w => (d, w))
      ∧ (routerRun (constHeaderCfg d sr) (REv.writeHeader code :: ws.map REv.write)).buf = []
      ∧ (routerRun (constHeaderCfg d sr) (REv.writeHeader code :: ws.map REv.write)).done
        = [d] := by
  intro δ d sr code ws
  have h1 : routerStep (constHeaderCfg d sr) routerInit (.writeHeader code)
      = { statusCode := code, wroteHeader := true, sniffed := false, timerCreated := false,
          buf := [], writer := .dest d, done := [d], doneClosed := true, out := [] } := rfl
  unfold routerRun
  simp only [List.foldl_cons]
  rw [h1]
  rw [foldl_writes_dest _ d ws _ rfl rfl]
  simp

/-- C2: the two PubSub implementations are not behaviorally equivalent.  For
the operation sequence Subscribe then teardown, the coordinator-goroutine
implementation closes the receive channel of the one subscription issued,
while the mutex-map implementation closes no receive channel at all; and for
teardown then Subscribe then Publish, the coordinator implementation delivers
nothing while the mutex-map implementation delivers the message to the
subscriber registered after Clear. -/
theorem c2_implementations_differ :
    (coordRun ([.subscribe, .teardown] : List (PSOp Nat))).rcvClosed = [0]
    ∧ (mutexRun ([.subscribe, .teardown] : List (PSOp Nat))).rcvClosed = []
    ∧ (coordRun ([.teardown, .subscribe, .publish 7] : List (PSOp Nat))).delivered = []
    ∧ (mutexRun ([.teardown, .subscribe, .publish 7] : List (PSOp Nat))).delivered
      = [(0, 7)] := by
  decide

/-- C3: after teardown, the coordinator-goroutine implementation has closed
the receive channel of every subscription ever issued (both the one removed
by unsubscribe and the one still registered), so every consumer read loop
terminates; the mutex-map implementation's Clear closes no receive channel
whatsoever, so no read loop ranging over its receive channel can terminate. -/
theorem c3_teardown_receive_channels :
    (0 ∈ (coordRun ([.subscribe, .subscribe, .unsub 1, .teardown] : List (PSOp Nat))).rcvClosed
      ∧ 1 ∈ (coordRun ([.subscribe, .subscribe, .unsub 1, .teardown] :
          List (PSOp Nat))).rcvClosed)
    ∧ (mutexRun ([.subscribe, .subscribe, .unsub 1, .teardown] : List (PSOp Nat))).rcvClosed
      = [] := by
  decide

/-- C4: unsubscription is idempotent in both implementations (a second call
changes nothing), and the coordinator-goroutine implementation removes the
subscription from its subscriber set; but the mutex-map implementation never
removes the subscription from p.subscribers — it stays a member of the set
forever, including across later publishes — refuting the removal part of the
claim for that implementation. -/
theorem c4_unsub_idempotent_no_removal :
    (coordRun ([.subscribe, .unsub 0] : List (PSOp Nat))).subs = []
    ∧ coordRun ([.subscribe, .unsub 0, .unsub 0] : List (PSOp Nat))
      = coordRun ([.subscribe, .unsub 0] : List (PSOp Nat))
    ∧ mutexRun ([.subscribe, .unsub 0, .unsub 0] : List (PSOp Nat))
      = mutexRun ([.subscribe, .unsub 0] : List (PSOp Nat))
    ∧ (mutexRun ([.subscribe, .unsub 0] : List (PSOp Nat))).subscribers = [0]
    ∧ (mutexRun ([.subscribe, .unsub 0, .publish 3] : List (PSOp Nat))).subscribers
      = [0] := by
  decide

/-- C6: in the coordinator-goroutine implementation a registered subscriber
receives a publish and an unsubscribed one does not; but in the mutex-map
implementation, after Subscribe then unsubscribe, Publish still spawns a
delivery attempt for the unsubscribed subscriber (it is still in
p.subscribers), whose done channel is closed while its receive channel is
not — so the select racing the send against the closed done channel can hand
the message to a consumer that unsubscribed before the publish started. -/
theorem c6_post_unsubscribe_delivery_attempt :
    (coordRun ([.subscribe, .publish 5] : List (PSOp Nat))).delivered = [(0, 5)]
    ∧ (coordRun ([.subscribe, .unsub 0, .publish 5] : List (PSOp Nat))).delivered = []
    ∧ 0 ∈ mutexPublishAttempts (mutexRun ([.subscribe, .unsub 0] : List (PSOp Nat)))
    ∧ 0 ∈ (mutexRun ([.subscribe, .unsub 0] : List (PSOp Nat))).closedFlags
    ∧ 0 ∉ (mutexRun ([.subscribe, .unsub 0] : List (PSOp Nat))).rcvClosed := by
  decide

theorem find?_cons_pos {α : Type} (p : α → Bool) (a : α) (l : List α) (h : p a = true) :
    (a :: l).find? p = some a := by
  simp [List.find?, h]

theorem find?_cons_neg {α : Type} (p : α → Bool) (a : α) (l : List α) (h : p a = false) :
    (a :: l).find? p = l.find? p := by
  simp [List.find?, h]

theorem find?_sat {α : Type} (p : α → Bool) (l : List α) (x : α) (h : l.find? p = some x) :
    p x = true := by
  induction l with
  | nil => simp [List.find?] at h
  | cons a as ih =>
    cases hc : p a with
    | false =>
      rw [find?_cons_neg p a as hc] at h
      exact ih h
    | true =>
      rw [find?_cons_pos p a as hc] at h
      injection h with he
      subst he
      exact hc

theorem find?_append_of_none {α : Type} (p : α → Bool) (l : List α) (c : α)
    (h : l.find? p = none) :
    (l ++ [c]).find? p = if p c then some c else none := by
  induction l with
  | nil =>
    cases hc : p c
    · simp [List.find?, hc]
    · simp [List.find?, hc]
  | cons a as ih =>
    cases hc : p a with
    | false =>
      rw [find?_cons_neg p a as hc] at h
      rw [List.cons_append, find?_cons_neg p a _ hc]
      exact ih h
    | true =>
      rw [find?_cons_pos p a as hc] at h
      exact absurd h (by simp)

theorem find?_append_of_some {α : Type} (p : α → Bool) (l : List α) (c : α) (x : α)
    (h : l.find? p = some x) :
    (l ++ [c]).find? p = some x := by
  induction l with
  | nil => simp [List.find?] at h
  | cons a as ih =>
    cases hc : p a with
    | false =>
      rw [find?_cons_neg p a as hc] at h
      rw [List.cons_append, find?_cons_neg p a _ hc]
      exact ih h
    | true =>
      rw [find?_cons_pos p a as hc] at h
      rw [List.cons_append, find?_cons_pos p a _ hc]
      exact h

theorem find?_updateFirstList_self (p : HNode → Bool) (f : HNode → HNode)
    (l : List HNode) (x : HNode) (hfind : l.find? p = some x) (hpf : p (f x) = true) :
    (updateFirstList p f l).find? p = some (f x) := by
  induction l with
  | nil => simp [List.find?] at hfind
  | cons c cs ih =>
    cases hc : p c with
    | false =>
      rw [find?_cons_neg p c cs hc] at hfind
      simp only [updateFirstList]
      rw [if_neg (by simp [hc])]
      rw [find?_cons_neg p c _ hc]
      exact ih hfind
    | true =>
      rw [find?_cons_pos p c cs hc] at hfind
      injection hfind with he
      subst he
      simp only [updateFirstList]
      rw [if_pos hc]
      exact find?_cons_pos p (f c) cs hpf

theorem find?_updateFirstList_other (p q : HNode → Bool) (f : HNode → HNode)
    (l : List HNode) (hq : ∀ y, p y = true → q y = false ∧ q (f y) = false) :
    (updateFirstList p f l).find? q = l.find? q := by
  induction l with
  | nil => rfl
  | cons c cs ih =>
    cases hc : p c with
    | false =>
      simp only [updateFirstList]
      rw [if_neg (by simp [hc])]
      cases hqc : q c with
      | false =>
        rw [find?_cons_neg q c _ hqc, find?_cons_neg q c cs hqc]
        exact ih
      | true =>
        rw [find?_cons_pos q c _ hqc, find?_cons_pos q c cs hqc]
    | true =>
      simp only [updateFirstList]
      rw [if_pos hc]
      have hb := hq c hc
      rw [find?_cons_neg q (f c) cs hb.2, find?_cons_neg q c cs hb.1]

theorem isTag_updateFirstChild (t : String) (p : HNode → Bool) (f : HNode → HNode)
    (n : HNode) : isTag t (updateFirstChild p f n) = isTag t n := rfl

theorem isTag_appendChild (t : String) (n c : HNode) :
    isTag t (appendChild n c) = isTag t n := rfl

theorem isTag_prependChild (t : String) (n c : HNode) :
    isTag t (prependChild n c) = isTag t n := rfl

theorem isTag_findOrCreateHeadTag (t : String) (h : HNode) :
    isTag t (findOrCreateHeadTag h) = isTag t h := by
  unfold findOrCreateHeadTag
  cases findFirstTag h "head" <;> rfl

theorem isDoctype_of_isTag (t : String) (y : HNode) (h : isTag t y = true) :
    isDoctype y = false := by
  unfold isTag at h
  rw [decide_eq_true_eq] at h
  unfold isDoctype
  rw [h.1]
  decide

theorem ntype_updateFirstChild (p : HNode → Bool) (f : HNode → HNode) (n : HNode) :
    (updateFirstChild p f n).ntype = n.ntype := rfl

theorem ntype_findOrCreateHeadTag (h : HNode) :
    (findOrCreateHeadTag h).ntype = h.ntype := by
  unfold findOrCreateHeadTag
  cases findFirstTag h "head" <;> rfl

theorem findFirstTag_findOrCreateHtmlTag (doc : HNode) :
    findFirstTag (findOrCreateHtmlTag doc) "html"
      = some ((findFirstTag doc "html").getD emptyHtmlTag) := by
  unfold findOrCreateHtmlTag
  cases hh : findFirstTag doc "html" with
  | some h =>
    simp only []
    cases hd : findDoctype doc with
    | some dt => exact hh
    | none =>
      show (prependChild doc doctypeHtml).children.find? (isTag "html") = some h
      show (doctypeHtml :: doc.children).find? (isTag "html") = some h
      rw [find?_cons_neg _ _ _ (by decide)]
      exact hh
  | none =>
    simp only []
    cases hd : findDoctype (appendChild doc emptyHtmlTag) with
    | some dt =>
      show (appendChild doc emptyHtmlTag).children.find? (isTag "html") = some emptyHtmlTag
      show (doc.children ++ [emptyHtmlTag]).find? (isTag "html") = some emptyHtmlTag
      rw [find?_append_of_none _ _ _ hh]
      rw [if_pos (by decide : isTag "html" emptyHtmlTag = true)]
    | none =>
      show (prependChild (appendChild doc emptyHtmlTag) doctypeHtml).children.find?
          (isTag "html") = some emptyHtmlTag
      show (doctypeHtml :: (doc.children ++ [emptyHtmlTag])).find? (isTag "html")
          = some emptyHtmlTag
      rw [find?_cons_neg _ _ _ (by decide)]
      rw [find?_append_of_none _ _ _ hh]
      rw [if_pos (by decide : isTag "html" emptyHtmlTag = true)]

theorem findDoctype_findOrCreateHtmlTag (doc : HNode) :
    findDoctype (findOrCreateHtmlTag doc) = some ((findDoctype doc).getD doctypeHtml) := by
  unfold findOrCreateHtmlTag
  cases hh : findFirstTag doc "html" with
  | some h =>
    simp only []
    cases hd : findDoctype doc with
    | some dt =>
      show findDoctype doc = some ((some dt).getD doctypeHtml)
      rw [hd]
      rfl
    | none =>
      show (doctypeHtml :: doc.children).find? isDoctype = some (Option.getD none doctypeHtml)
      rw [find?_cons_pos _ _ _ (by decide)]
      rfl
  | none =>
    simp only []
    have hdd : findDoctype (appendChild doc emptyHtmlTag) = findDoctype doc := by
      show (doc.children ++ [emptyHtmlTag]).find? isDoctype = doc.children.find? isDoctype
      cases hd : doc.children.find? isDoctype with
      | none =>
        rw [find?_append_of_none _ _ _ hd]
        rw [if_neg (by decide : ¬ isDoctype emptyHtmlTag = true)]
      | some dt => exact find?_append_of_some _ _ _ _ hd
    cases hd : findDoctype (appendChild doc emptyHtmlTag) with
    | some dt =>
      show findDoctype (appendChild doc emptyHtmlTag)
          = some ((findDoctype doc).getD doctypeHtml)
      rw [hd] at hdd
      rw [hd, ← hdd]
      rfl
    | none =>
      show findDoctype (prependChild (appendChild doc emptyHtmlTag) doctypeHtml)
          = some ((findDoctype doc).getD doctypeHtml)
      rw [hd] at hdd
      rw [← hdd]
      show (doctypeHtml :: (appendChild doc emptyHtmlTag).children).find? isDoctype
          = some (Option.getD none doctypeHtml)
      rw [find?_cons_pos _ _ _ (by decide)]
      rfl

theorem patched_head_children (h : HNode) (attrs : List HAttr) (content : String) :
    (findFirstTag
      (updateFirstChild (isTag "head")
        (fun headTag => appendChild headTag (scriptTag attrs content))
        (findOrCreateHeadTag h)) "head").map HNode.children
      = some ((((findFirstTag h "head").map HNode.children).getD [])
          ++ [scriptTag attrs content]) := by
  cases hhd : findFirstTag h "head" with
  | some hd =>
    have hfoc : findOrCreateHeadTag h = h := by
      unfold findOrCreateHeadTag
      rw [hhd]
    rw [hfoc]
    have hpd : isTag "head" hd = true := find?_sat _ _ _ hhd
    have hpf : isTag "head" (appendChild hd (scriptTag attrs content)) = true := by
      rw [isTag_appendChild]
      exact hpd
    have hupd := find?_updateFirstList_self (isTag "head")
      (fun headTag => appendChild headTag (scriptTag attrs content)) h.children hd hhd hpf
    show ((updateFirstList (isTag "head")
        (fun headTag => appendChild headTag (scriptTag attrs content))
        h.children).find? (isTag "head")).map HNode.children = _
    rw [hupd]
    rfl
  | none =>
    have hfoc : findOrCreateHeadTag h = prependChild h emptyHeadTag := by
      unfold findOrCreateHeadTag
      rw [hhd]
    rw [hfoc]
    have h1 : updateFirstList (isTag "head")
        (fun headTag => appendChild headTag (scriptTag attrs content))
        (emptyHeadTag :: h.children)
        = appendChild emptyHeadTag (scriptTag attrs content) :: h.children := by
      simp only [updateFirstList]
      rw [if_pos (by decide : isTag "head" emptyHeadTag = true)]
    show ((updateFirstList (isTag "head")
        (fun headTag => appendChild headTag (scriptTag attrs content))
        (emptyHeadTag :: h.children)).find? (isTag "head")).map HNode.children = _
    rw [h1]
    rw [find?_cons_pos _ _ _ (by
      rw [isTag_appendChild]
      decide)]
    rfl

theorem patched_doc_html (doc : HNode) (attrs : List HAttr) (content : String) :
    findFirstTag (insertScriptTree doc attrs content) "html"
      = some (updateFirstChild (isTag "head")
          (fun headTag => appendChild headTag (scriptTag attrs content))
          (findOrCreateHeadTag ((findFirstTag doc "html").getD emptyHtmlTag))) := by
  have hmain := findFirstTag_findOrCreateHtmlTag doc
  have hx : isTag "html" ((findFirstTag doc "html").getD emptyHtmlTag) = true :=
    find?_sat _ _ _ hmain
  have hpf : isTag "html"
      (updateFirstChild (isTag "head")
        (fun headTag => appendChild headTag (scriptTag attrs content))
        (findOrCreateHeadTag ((findFirstTag doc "html").getD emptyHtmlTag))) = true := by
    rw [isTag_updateFirstChild, isTag_findOrCreateHeadTag]
    exact hx
  exact find?_updateFirstList_self (isTag "html") _
    (findOrCreateHtmlTag doc).children _ hmain hpf

/-- C9: the markup patcher.  For every parsed document tree, the patched tree
has exactly the old children of the head element (or none, when there was no
head) followed by the one appended script element as the children of the
first head element of the first html element, with html and head elements and
a doctype synthesized exactly when absent (an existing doctype is kept
unchanged); and InsertScript returns an error exactly in the case the parse
result is an error, wrapping the parse error. -/
theorem c9_insert_script_shape :
    ∀ (doc : HNode) (attrs : List HAttr) (content : String),
      headChildrenVia (insertScriptTree doc attrs content)
        = some (((headChildrenVia doc).getD []) ++ [scriptTag attrs content])
      ∧ findDoctype (insertScriptTree doc attrs content)
        = some ((findDoctype doc).getD doctypeHtml)
      ∧ (∀ e, insertScript (.error e) attrs content
          = .error ("could not parse HTML: " ++ e))
      ∧ (∀ d, insertScript (.ok d) attrs content
          = .ok (insertScriptTree d attrs content)) := by
  intro doc attrs content
  refine ⟨?_, ?_, fun e => rfl, fun d => rfl⟩
  · show (findFirstTag (insertScriptTree doc attrs content) "html").bind
        (fun h => (findFirstTag h "head").map HNode.children) = _
    rw [patched_doc_html doc attrs content]
    show (findFirstTag
        (updateFirstChild (isTag "head")
          (fun headTag => appendChild headTag (scriptTag attrs content))
          (findOrCreateHeadTag ((findFirstTag doc "html").getD emptyHtmlTag)))
        "head").map HNode.children = _
    rw [patched_head_children]
    cases horig : findFirstTag doc "html" with
    | some h0 =>
      unfold headChildrenVia
      rw [horig]
      rfl
    | none =>
      unfold headChildrenVia
      rw [horig]
      rfl
  · show ((updateFirstList (isTag "html") _ (findOrCreateHtmlTag doc).children).find?
        isDoctype) = _
    rw [find?_updateFirstList_other (isTag "html") isDoctype _
      (findOrCreateHtmlTag doc).children (fun y hy => ?_)]
    · exact findDoctype_findOrCreateHtmlTag doc
    · refine ⟨isDoctype_of_isTag "html" y hy, ?_⟩
      have hn : (updateFirstChild (isTag "head")
          (fun headTag => appendChild headTag (scriptTag attrs content))
          (findOrCreateHeadTag y)).ntype = y.ntype := by
        rw [ntype_updateFirstChild, ntype_findOrCreateHeadTag]
      unfold isDoctype
      rw [hn]
      unfold isTag at hy
      rw [decide_eq_true_eq] at hy
      rw [hy.1]
      decide

theorem findSome?_congr {α β : Type} (f g : α → Option β) (l : List α)
    (h : ∀ a, f a = g a) : l.findSome? f = l.findSome? g := by
  induction l with
  | nil => rfl
  | cons a as ih =>
    simp only [List.findSome?]
    rw [h a]
    cases g a with
    | none => exact ih
    | some b => rfl

theorem directiveNonce_eq_spec (d : List Char) :
    directiveNonce d = specDirectiveNonce d := by
  unfold directiveNonce specDirectiveNonce
  cases hgf : goFields d with
  | nil => rfl
  | cons f0 rest =>
    cases rest with
    | nil =>
      by_cases hf : f0 = s2c "script-src"
      · simp [hf, List.findSome?]
      · simp [hf]
    | cons r rs => rfl

theorem cspScriptNonce_eq_spec (csp : List Char) :
    cspScriptNonce csp = (specFirstNonce csp).getD [] := by
  unfold cspScriptNonce specFirstNonce
  rw [findSome?_congr directiveNonce specDirectiveNonce (goSplitSep ';' csp)
    directiveNonce_eq_spec]

/-- C10 counterexample: the CSP value consisting of one script-src directive
whose fields are a bare quoted nonce- marker (empty value) followed by a
quoted nonce token with value abc.  The directive does contain a nonce token
with value abc, yet the injected script element gets no nonce attribute,
refuting the claim as stated. -/
theorem c10_nonce_attr_counterexample :
    goSplitSep ';' cspCounterexample = [cspCounterexample]
    ∧ (goFields cspCounterexample).head? = some (s2c "script-src")
    ∧ (∃ field ∈ (goFields cspCounterexample).drop 1,
        nonceOfField field = some (s2c "abc"))
    ∧ scriptNonceAttrs cspCounterexample = [] := by
  decide

/-- C10 amended: the injected script element carries a nonce attribute equal
to the value of the first nonce- token (after quote trimming) of the first
script-src directive containing one, provided that value is nonempty; when
that first value is empty, and when no script-src directive contains a
nonce- token, the script element carries no nonce attribute. -/
theorem c10_nonce_attr_amended :
    ∀ csp : List Char,
      (specFirstNonce csp = none → scriptNonceAttrs csp = [])
      ∧ (∀ v, specFirstNonce csp = some v →
          scriptNonceAttrs csp
            = (if v = [] then [] else [⟨"nonce", String.mk v⟩])) := by
  intro csp
  constructor
  · intro hn
    unfold scriptNonceAttrs
    rw [cspScriptNonce_eq_spec, hn]
    rfl
  · intro v hv
    unfold scriptNonceAttrs
    rw [cspScriptNonce_eq_spec, hv]
    rfl

/-- C10 witness: the amended theorem applied at a CSP value with one nonce
token with value xyz, and at one without any script-src nonce token. -/
theorem c10_nonce_attr_amended_witness :
    scriptNonceAttrs cspWitnessYes = [⟨"nonce", "xyz"⟩]
    ∧ scriptNonceAttrs cspWitnessNo = [] := by
  constructor
  · rw [(c10_nonce_attr_amended cspWitnessYes).2 (s2c "xyz") (by decide)]
    decide
  · exact (c10_nonce_attr_amended cspWitnessNo).1 (by decide)

/-- C8: the patch-failure policy of Handler.injectScript.  When the markup
patch fails after the response was routed for rewriting, an original status
other than 200 forwards the buffered bytes verbatim under the original
status, and an original status of 200 yields a 500 whose body is the wrapped
error text. -/
theorem c8_patch_failure_policy :
    ∀ (origStatus : Nat) (origHtml e : List Char),
      (origStatus ≠ 200 →
        finishInjectScript origStatus origHtml (.error e) = (origStatus, origHtml))
      ∧ (origStatus = 200 →
        finishInjectScript origStatus origHtml (.error e)
          = (500, insertErrPre ++ e ++ ['\n'])) := by
  intro origStatus origHtml e
  constructor
  · intro hne
    simp only [finishInjectScript]
    rw [if_pos hne]
  · intro heq
    subst heq
    simp only [finishInjectScript]
    rw [if_neg (not_not_intro rfl)]
    rfl

/-- C8 witness: the policy theorem applied at status 404 and at status 200
with concrete bytes and a concrete patch error. -/
theorem c8_patch_failure_policy_witness :
    finishInjectScript 404 (s2c "orig bytes") (.error (s2c "boom"))
      = (404, s2c "orig bytes")
    ∧ finishInjectScript 200 (s2c "orig bytes") (.error (s2c "boom"))
      = (500, insertErrPre ++ s2c "boom" ++ ['\n']) :=
  ⟨(c8_patch_failure_policy 404 (s2c "orig bytes") (s2c "boom")).1 (by decide),
   (c8_patch_failure_policy 200 (s2c "orig bytes") (s2c "boom")).2 rfl⟩
